import Mathlib

set_option autoImplicit false

/-!
Shallow embedding of `htmd/parameterization/fftype.py` (functions
`_canonicalizeAtomNames` and `fftype`) and proofs about the claims of the
specification.

Modelling conventions:
* A `Molecule` is the record of the per-atom parallel arrays the source code
  touches (`name`, `element`, `charge`, `atomtype`, `masses`, `segid`,
  `resname`, `impropers`).  Arrays are Lean lists.
* Floating point charges/masses are modelled as rationals; Python `round`
  (half-to-even banker's rounding, as applied by `int(round(np.sum(...)))`)
  is `pyRound`.
* Python truthiness of optional string arguments (`if rtfFile and prmFile`,
  `if ... and acCharges`) is `truthy`; `is not None` tests are `Option.isSome`.
* The outside world (the three external executables and the file parsers
  `readPREPI` / `readFRCMOD` / `readRTF` / parmed parameter-set constructors)
  is an oracle record `Env` holding the subprocess return codes and whatever
  the parsers produced.  Parameter sets are opaque (`ParamSet`).
* Side effects are recorded in a `Trace`: log records (as an inductive type
  carrying the interpolated data), the exact argv of each subprocess call,
  files written (directory, filename), and temporary directories created and
  deleted.  `with TemporaryDirectory()` creates one directory and removes it
  on every exit path of the block body, including exceptional ones.
* Exceptions are `Err` values returned in `Except`; `assert` failures are
  `Err.assertionError`.
-/

namespace Htmd

/-- Python `str.upper()` restricted to what the code feeds it (element
symbols): character-wise upper-casing. -/
def pyUpper (s : String) : String := String.mk (s.data.map Char.toUpper)

/-- Python `str.lower()` (used for `method.lower()`). -/
def pyLower (s : String) : String := String.mk (s.data.map Char.toLower)

/-- Python truthiness of an optional string: `None` and `''` are falsy. -/
def truthy : Option String → Bool
  | none => false
  | some s => s ≠ ""

/-- Floor of a rational, `q.num / q.den` with Euclidean integer division
(the denominator is positive, so this is the floor). -/
def pyFloor (q : ℚ) : Int := q.num / (q.den : Int)

/-- Python `int(round(x))`: round half to even (banker's rounding). -/
def pyRound (q : ℚ) : Int :=
  let f := pyFloor q
  let r := q - (f : ℚ)
  if r < 1/2 then f
  else if 1/2 < r then f + 1
  else if f % 2 = 0 then f else f + 1

/-- An improper dihedral: a 4-tuple of atom indices. -/
def Improper := Nat × Nat × Nat × Nat
deriving DecidableEq, Inhabited

/-- Opaque parameter-set aggregate (parmed `ParameterSet`); the core only
passes it through, so the model keeps it abstract as a tagged value. -/
structure ParamSet where
  tag : Nat
deriving DecidableEq

/-- The molecule record: the per-atom parallel arrays and molecule-level
fields that `fftype.py` reads or writes. -/
structure Molecule where
  name : List String
  element : List String
  segid : List String
  resname : List String
  atomtype : List String
  charge : List ℚ
  masses : List ℚ
  impropers : List Improper
deriving DecidableEq

/-- Log records emitted by the module, with their interpolated data. -/
inductive LogMsg where
  /-- info "Rename segment to L" (the sentinel just assigned). -/
  | renameSegment : LogMsg
  /-- info "Rename residue to MOL" (the sentinel just assigned). -/
  | renameResidue : LogMsg
  /-- info "Rename atom i: old --> new". -/
  | renameAtom (i : Nat) (old new : String) : LogMsg
  /-- info "Reading FF parameters from rtfFile and prmFile". -/
  | readingFF (rtfFile prmFile : String) : LogMsg
  /-- info "Assigning atom types with method". -/
  | assigningTypes (method : String) : LogMsg
  /-- debug "Temporary directory: dir". -/
  | tmpDirMsg (dir : String) : LogMsg
  /-- warning "Using atomic charges from molecule object to calculate net
  charge". -/
  | usingMolCharges : LogMsg
deriving DecidableEq

/-- Exceptions raised by `fftype`. -/
inductive Err where
  | valueError (msg : String) : Err
  | runtimeError (msg : String) : Err
  | assertionError : Err
deriving DecidableEq

/-- The tuple `(names, elements, atomtypes, charges, masses, impropers)`
produced by a backend reader. -/
structure RtfData where
  names : List String
  elements : List String
  atomtypes : List String
  charges : List ℚ
  masses : List ℚ
  impropers : List Improper
deriving DecidableEq

/-- Oracle for the outside world: subprocess return codes, parser outputs and
parameter-set constructions, and the name of the automatically created
temporary directory. -/
structure Env where
  /-- return code of the `antechamber` call -/
  antechamberRet : Int
  /-- return code of the `parmchk2` call -/
  parmchk2Ret : Int
  /-- return code of the `match-typer` call -/
  matchTyperRet : Int
  /-- parmed AmberParameterSet built from `mol.frcmod` -/
  amberPrm : ParamSet
  /-- parmed CharmmParameterSet built from `mol.rtf` / `mol.prm` -/
  cgenffPrm : ParamSet
  /-- parmed CharmmParameterSet built from the caller's rtf/prm files -/
  directPrm : ParamSet
  /-- names from `readPREPI` -/
  prepiNames : List String
  /-- atom types from `readPREPI` -/
  prepiAtomtypes : List String
  /-- charges from `readPREPI` -/
  prepiCharges : List ℚ
  /-- impropers from `readPREPI` -/
  prepiImpropers : List Improper
  /-- masses from `readFRCMOD` -/
  frcmodMasses : List ℚ
  /-- elements from `readFRCMOD` -/
  frcmodElements : List String
  /-- tuple from `readRTF` on the `mol.rtf` written by match-typer -/
  cgenffRtf : RtfData
  /-- tuple from `readRTF` on the caller-supplied rtf file -/
  directRtf : RtfData
  /-- the directory created by `TemporaryDirectory()` -/
  autoTmpName : String

/-- Effects of a call: logs, subprocess argv lists, files written
(directory, filename), temporary directories created and deleted. -/
structure Trace where
  logs : List LogMsg
  procs : List (List String)
  written : List (String × String)
  tmpCreated : List String
  tmpDeleted : List String
deriving DecidableEq

/-- The empty trace (no effect has happened yet). -/
def emptyTrace : Trace := ⟨[], [], [], [], []⟩

/-- The inner renaming loop of `_canonicalizeAtomNames`: walks the element
list with the `sufices` dictionary (a counter per upper-cased element symbol)
and the list of old names (for the log records), producing the new names and
the per-atom log records.  `i` is the running atom index. -/
def canonLoop : (String → Nat) → Nat → List String → List String →
    List String × List LogMsg
  | _, _, [], _ => ([], [])
  | suf, i, e :: es, olds =>
    let nm0 := pyUpper e
    let c := suf nm0 + 1
    let nm := nm0 ++ Nat.repr c
    let rest := canonLoop (fun s => if s = nm0 then c else suf s) (i + 1) es olds.tail
    (nm :: rest.1, .renameAtom i (olds.headD "") nm :: rest.2)

/-- Embedding of `_canonicalizeAtomNames`: returns the renamed copy and the
log records it emits.  `mol.segid[:] = 'L'` / `mol.resname[:] = 'MOL'`
overwrite every entry of those arrays; the renaming loop runs over the atoms
in order. -/
def _canonicalizeAtomNames (mol : Molecule) : Molecule × List LogMsg :=
  let r := canonLoop (fun _ => 0) 0 mol.element mol.name
  ({ mol with
      segid := List.replicate mol.segid.length "L"
      resname := List.replicate mol.resname.length "MOL"
      name := r.1 },
    .renameSegment :: .renameResidue :: r.2)

/-- The closed tuple of recognized methods (`fftypemethods` in the source). -/
def fftypemethods : List String := ["CGenFF_2b6", "GAFF", "GAFF2"]

/-- argv of the `antechamber` invocation (the `-c` scheme flag is appended
exactly when `acCharges is not None`). -/
def antechamberCmd (atomtype : String) (nc : Int) (acCharges : Option String) :
    List String :=
  ["antechamber", "-at", atomtype, "-nc", toString nc, "-fi", "mol2",
    "-i", "mol.mol2", "-fo", "prepi", "-o", "mol.prepi"] ++
  (match acCharges with
    | some c => ["-c", c]
    | none => [])

/-- argv of the `parmchk2` invocation. -/
def parmchk2Cmd (atomtype : String) : List String :=
  ["parmchk2", "-f", "prepi", "-s", atomtype, "-i", "mol.prepi",
    "-o", "mol.frcmod", "-a", "Y"]

/-- argv of the `match-typer` invocation. -/
def matchTyperCmd (nc : Int) : List String :=
  ["match-typer", "-charge", toString nc, "-forcefield",
    "top_all36_cgenff_new", "mol.pdb"]

/-- Lines 182-187 of the source: copy the input molecule, overwrite
`atomtype`, `masses`, `impropers`, and overwrite `charge` exactly when
`acCharges is not None`. -/
def applyTypes (mol : Molecule) (acCharges : Option String) (d : RtfData) :
    Molecule :=
  { mol with
      atomtype := d.atomtypes
      masses := d.masses
      impropers := d.impropers
      charge := if acCharges.isSome then d.charges else mol.charge }

/-- Line 180 onward of the source: `assert np.all(mol.element == elements)`
followed by the construction of the result. -/
def elemCheckAndBuild (mol : Molecule) (acCharges : Option String)
    (prm : ParamSet) (d : RtfData) (tr : Trace) :
    Except Err (ParamSet × Molecule) × Trace :=
  if mol.element = d.elements then (.ok (prm, applyTypes mol acCharges d), tr)
  else (.error .assertionError, tr)

/-- The backend tuple assembled on the GAFF/GAFF2 path: names, atom types,
charges and impropers from `readPREPI`, masses and elements from
`readFRCMOD`. -/
def gaffData (env : Env) : RtfData :=
  ⟨env.prepiNames, env.frcmodElements, env.prepiAtomtypes,
    env.prepiCharges, env.frcmodMasses, env.prepiImpropers⟩

/-- Embedding of `fftype`.  Returns the Python result (`(prm, mol)` pair or
the raised exception) together with the trace of the call's effects. -/
def fftype (env : Env) (mol : Molecule) (rtfFile prmFile : Option String)
    (method : String) (acCharges : Option String) (tmpDir : Option String)
    (netcharge : Option Int) : Except Err (ParamSet × Molecule) × Trace :=
  if method ∉ fftypemethods then
    (.error (.valueError ("Invalid method " ++ method ++
      ". Available methods " ++ String.intercalate "," fftypemethods)),
      emptyTrace)
  else if method = "CGenFF_2b6" ∧ truthy acCharges = true then
    (.error (.valueError "acCharges"), emptyTrace)
  else
    let nc : Int := match netcharge with
      | none => pyRound mol.charge.sum
      | some n => n
    let logs0 : List LogMsg := match netcharge with
      | none => [.usingMolCharges]
      | some _ => []
    if truthy rtfFile = true ∧ truthy prmFile = true then
      let tr : Trace :=
        ⟨logs0 ++ [.readingFF (rtfFile.getD "") (prmFile.getD "")],
          [], [], [], []⟩
      elemCheckAndBuild mol acCharges env.directPrm env.directRtf tr
    else
      let rm := _canonicalizeAtomNames mol
      let workdir := tmpDir.getD env.autoTmpName
      let logs1 := logs0 ++ [.assigningTypes method] ++ rm.2 ++
        [.tmpDirMsg workdir]
      if method = "GAFF" ∨ method = "GAFF2" then
        let atomtype := pyLower method
        let written := [(workdir, "mol.mol2")]
        let cmd1 := antechamberCmd atomtype nc acCharges
        if env.antechamberRet ≠ 0 then
          (.error (.runtimeError "\"antechamber\" failed"),
            ⟨logs1, [cmd1], written, [env.autoTmpName], [env.autoTmpName]⟩)
        else
          let cmd2 := parmchk2Cmd atomtype
          if env.parmchk2Ret ≠ 0 then
            (.error (.runtimeError "\"parmchk2\" failed"),
              ⟨logs1, [cmd1, cmd2], written, [env.autoTmpName],
                [env.autoTmpName]⟩)
          else
            let tr : Trace :=
              ⟨logs1, [cmd1, cmd2], written, [env.autoTmpName],
                [env.autoTmpName]⟩
            if rm.1.name = (gaffData env).names then
              elemCheckAndBuild mol acCharges env.amberPrm (gaffData env) tr
            else (.error .assertionError, tr)
      else if method = "CGenFF_2b6" then
        let written := [(workdir, "mol.pdb")]
        let cmd := matchTyperCmd nc
        if env.matchTyperRet ≠ 0 then
          (.error (.runtimeError "\"match-typer\" failed"),
            ⟨logs1, [cmd], written, [env.autoTmpName], [env.autoTmpName]⟩)
        else
          let tr : Trace :=
            ⟨logs1, [cmd], written, [env.autoTmpName], [env.autoTmpName]⟩
          if rm.1.name = env.cgenffRtf.names then
            elemCheckAndBuild mol acCharges env.cgenffPrm env.cgenffRtf tr
          else (.error .assertionError, tr)
      else
        -- the final `else: raise ValueError` of the method dispatch
        -- (unreachable because of the membership check above)
        (.error (.valueError ("Invalid method " ++ method)),
          ⟨logs1, [], [], [env.autoTmpName], [env.autoTmpName]⟩)

/-- Which backend tuple and parameter set a given configuration reads its
result from (mirrors the source's dispatch). -/
def backendData (env : Env) (rtfFile prmFile : Option String)
    (method : String) : ParamSet × RtfData :=
  if truthy rtfFile = true ∧ truthy prmFile = true then
    (env.directPrm, env.directRtf)
  else if method = "GAFF" ∨ method = "GAFF2" then (env.amberPrm, gaffData env)
  else (env.cgenffPrm, env.cgenffRtf)


instance {ε α : Type} [DecidableEq ε] [DecidableEq α] :
    DecidableEq (Except ε α) := fun a b =>
  match a, b with
  | .ok x, .ok y => decidable_of_iff (x = y) (by simp)
  | .error x, .error y => decidable_of_iff (x = y) (by simp)
  | .ok _, .error _ => isFalse (by simp)
  | .error _, .ok _ => isFalse (by simp)

/-- Reference recursion for the decimal digit characters of a natural
number (most significant first), matching `Nat.toDigits 10`. -/
def natDigits (n : Nat) : List Char :=
  if n < 10 then [Nat.digitChar n]
  else natDigits (n / 10) ++ [Nat.digitChar (n % 10)]
decreasing_by exact Nat.div_lt_self (by omega) (by omega)

theorem natDigits_of_lt (n : Nat) (h : n < 10) :
    natDigits n = [Nat.digitChar n] := by
  conv_lhs => rw [natDigits]
  rw [if_pos h]

theorem natDigits_of_ge (n : Nat) (h : ¬ n < 10) :
    natDigits n = natDigits (n / 10) ++ [Nat.digitChar (n % 10)] := by
  conv_lhs => rw [natDigits]
  rw [if_neg h]

theorem toDigitsCore_eq_natDigits (f : Nat) :
    ∀ (n : Nat) (ds : List Char), n < f →
      Nat.toDigitsCore 10 f n ds = natDigits n ++ ds := by
  induction f with
  | zero => intro n ds h; omega
  | succ f ih =>
    intro n ds h
    show (if n / 10 = 0 then Nat.digitChar (n % 10) :: ds
      else Nat.toDigitsCore 10 f (n / 10) (Nat.digitChar (n % 10) :: ds)) =
      natDigits n ++ ds
    by_cases h10 : n / 10 = 0
    · have hn : n < 10 := by omega
      rw [if_pos h10, natDigits_of_lt n hn, Nat.mod_eq_of_lt hn]
      rfl
    · have hn : ¬ n < 10 := fun hc => h10 (Nat.div_eq_of_lt hc)
      have hlt : n / 10 < f := by
        have := Nat.div_lt_self (by omega : 0 < n) (by omega : 1 < 10)
        omega
      rw [if_neg h10, ih (n / 10) _ hlt, natDigits_of_ge n hn,
        List.append_assoc]
      rfl

theorem repr_data_eq_natDigits (n : Nat) : (Nat.repr n).data = natDigits n := by
  show (Nat.toDigitsCore 10 (n + 1) n []).asString.data = natDigits n
  rw [toDigitsCore_eq_natDigits (n + 1) n [] (Nat.lt_succ_self n),
    List.append_nil]
  rfl

theorem natDigits_ne_nil (n : Nat) : natDigits n ≠ [] := by
  by_cases h : n < 10
  · rw [natDigits_of_lt n h]; simp
  · rw [natDigits_of_ge n h]; simp

theorem digitChar_isDigit : ∀ k, k < 10 → (Nat.digitChar k).isDigit = true := by
  decide

theorem natDigits_all_digit (n : Nat) :
    ∀ c ∈ natDigits n, c.isDigit = true := by
  induction n using Nat.strong_induction_on with
  | _ n ih =>
    intro c hc
    by_cases hn : n < 10
    · rw [natDigits_of_lt n hn] at hc
      simp only [List.mem_singleton] at hc
      subst hc; exact digitChar_isDigit n hn
    · rw [natDigits_of_ge n hn] at hc
      rcases List.mem_append.mp hc with h | h
      · exact ih (n / 10) (Nat.div_lt_self (by omega) (by omega)) c h
      · simp only [List.mem_singleton] at h
        subst h; exact digitChar_isDigit _ (Nat.mod_lt n (by omega))

theorem digitChar_inj : ∀ m, m < 10 → ∀ n, n < 10 →
    Nat.digitChar m = Nat.digitChar n → m = n := by
  decide

theorem natDigits_length_ge_two (n : Nat) (h : ¬ n < 10) :
    2 ≤ (natDigits n).length := by
  rw [natDigits_of_ge n h, List.length_append, List.length_singleton]
  have := List.length_pos.mpr (natDigits_ne_nil (n / 10))
  omega

theorem natDigits_inj : ∀ m n, natDigits m = natDigits n → m = n := by
  intro m
  induction m using Nat.strong_induction_on with
  | _ m ih =>
    intro n h
    by_cases hm : m < 10 <;> by_cases hn : n < 10
    · rw [natDigits_of_lt m hm, natDigits_of_lt n hn] at h
      exact digitChar_inj m hm n hn (List.singleton_inj.mp h)
    · exfalso
      have h2 := natDigits_length_ge_two n hn
      rw [← h, natDigits_of_lt m hm] at h2
      simp at h2
    · exfalso
      have h2 := natDigits_length_ge_two m hm
      rw [h, natDigits_of_lt n hn] at h2
      simp at h2
    · rw [natDigits_of_ge m hm, natDigits_of_ge n hn] at h
      obtain ⟨h1, h2⟩ := List.append_inj' h rfl
      have e1 : m / 10 = n / 10 :=
        ih (m / 10) (Nat.div_lt_self (by omega) (by omega)) (n / 10) h1
      have e2 : m % 10 = n % 10 :=
        digitChar_inj _ (Nat.mod_lt m (by omega)) _ (Nat.mod_lt n (by omega))
          (List.singleton_inj.mp h2)
      omega

theorem repr_inj {m n : Nat} (h : Nat.repr m = Nat.repr n) : m = n :=
  natDigits_inj m n (by
    rw [← repr_data_eq_natDigits, ← repr_data_eq_natDigits, h])

theorem split_nondigit :
    ∀ (l₁ : List Char) {l₂ m₁ m₂ : List Char},
      l₁ ++ m₁ = l₂ ++ m₂ →
      (∀ c ∈ l₁, c.isDigit = false) → (∀ c ∈ l₂, c.isDigit = false) →
      (∀ c ∈ m₁, c.isDigit = true) → (∀ c ∈ m₂, c.isDigit = true) →
      m₁ ≠ [] → m₂ ≠ [] →
      l₁ = l₂ ∧ m₁ = m₂ := by
  intro l₁
  induction l₁ with
  | nil =>
    intro l₂ m₁ m₂ h h₁ h₂ hd₁ hd₂ hn₁ hn₂
    cases l₂ with
    | nil => exact ⟨rfl, h⟩
    | cons b t₂ =>
      exfalso
      cases m₁ with
      | nil => exact hn₁ rfl
      | cons a t₁ =>
        simp only [List.nil_append, List.cons_append, List.cons.injEq] at h
        have hbd : b.isDigit = true := h.1 ▸ hd₁ a (List.mem_cons_self _ _)
        have : b.isDigit = false := h₂ b (List.mem_cons_self _ _)
        simp [this] at hbd
  | cons a t₁ ihl =>
    intro l₂ m₁ m₂ h h₁ h₂ hd₁ hd₂ hn₁ hn₂
    cases l₂ with
    | nil =>
      exfalso
      cases m₂ with
      | nil => exact hn₂ rfl
      | cons b t₂ =>
        simp only [List.cons_append, List.nil_append, List.cons.injEq] at h
        have had : a.isDigit = true := h.1 ▸ hd₂ b (List.mem_cons_self _ _)
        have : a.isDigit = false := h₁ a (List.mem_cons_self _ _)
        simp [this] at had
    | cons b t₂ =>
      simp only [List.cons_append, List.cons.injEq] at h
      obtain ⟨rfl, h⟩ := h
      obtain ⟨e1, e2⟩ := ihl h (fun c hc => h₁ c (List.mem_cons_of_mem _ hc))
        (fun c hc => h₂ c (List.mem_cons_of_mem _ hc)) hd₁ hd₂ hn₁ hn₂
      exact ⟨by rw [e1], e2⟩


/-- Number of atoms among `es` whose upper-cased element symbol is `E`. -/
def upperCount (es : List String) (E : String) : Nat :=
  (es.map pyUpper).count E

theorem canonLoop_length (suf : String → Nat) (i : Nat) (es olds : List String) :
    (canonLoop suf i es olds).1.length = es.length := by
  induction es generalizing suf i olds with
  | nil => rfl
  | cons e es ih => simp [canonLoop, ih]

theorem upperCount_cons (e : String) (l : List String) (E : String) :
    upperCount (e :: l) E = upperCount l E + (if pyUpper e = E then 1 else 0) := by
  simp [upperCount, List.count_cons, Nat.add_comm]

theorem canonLoop_name_get (es : List String) :
    ∀ (suf : String → Nat) (i : Nat) (olds : List String) (j : Nat)
      (hj : j < es.length) (hj2 : j < (canonLoop suf i es olds).1.length),
      (canonLoop suf i es olds).1.get ⟨j, hj2⟩ =
        pyUpper (es.get ⟨j, hj⟩) ++
          Nat.repr (suf (pyUpper (es.get ⟨j, hj⟩)) +
            upperCount (es.take (j + 1)) (pyUpper (es.get ⟨j, hj⟩))) := by
  induction es with
  | nil => intro _ _ _ j hj; simp at hj
  | cons e es ih =>
    intro suf i olds j hj hj2
    cases j with
    | zero =>
      show pyUpper e ++ Nat.repr (suf (pyUpper e) + 1) = _
      simp [upperCount, List.count_cons]
    | succ j =>
      have hj' : j < es.length := by simpa using hj
      have hj2' : j < (canonLoop
          (fun s => if s = pyUpper e then suf (pyUpper e) + 1 else suf s)
          (i + 1) es olds.tail).1.length := by
        rw [canonLoop_length]; exact hj'
      show (canonLoop _ (i + 1) es olds.tail).1.get ⟨j, hj2'⟩ = _
      rw [ih _ (i + 1) olds.tail j hj' hj2']
      have hget : (e :: es).get ⟨j + 1, hj⟩ = es.get ⟨j, hj'⟩ := rfl
      rw [hget]
      have htake : (e :: es).take (j + 1 + 1) = e :: es.take (j + 1) := rfl
      rw [htake, upperCount_cons]
      by_cases hA : pyUpper (es.get ⟨j, hj'⟩) = pyUpper e
      · rw [if_pos hA, if_pos hA.symm]
        have harith :
            suf (pyUpper e) + 1 +
              upperCount (es.take (j + 1)) (pyUpper (es.get ⟨j, hj'⟩)) =
            suf (pyUpper (es.get ⟨j, hj'⟩)) +
              (upperCount (es.take (j + 1)) (pyUpper (es.get ⟨j, hj'⟩)) + 1) := by
          rw [hA]; omega
        rw [harith]
      · rw [if_neg hA, if_neg (fun h => hA h.symm)]
        simp

theorem upperCount_take_mono (es : List String) (E : String) {a b : Nat}
    (h : a ≤ b) : upperCount (es.take a) E ≤ upperCount (es.take b) E := by
  have hsub : List.Sublist ((es.take a).map pyUpper) ((es.take b).map pyUpper) := by
    have heq : es.take a = (es.take b).take a := by
      rw [List.take_take, Nat.min_eq_left h]
    rw [heq, List.map_take]
    exact List.take_sublist _ _
  exact hsub.count_le E

theorem upperCount_take_succ_self (es : List String) (j : Nat)
    (hj : j < es.length) :
    upperCount (es.take (j + 1)) (pyUpper (es.get ⟨j, hj⟩)) =
      upperCount (es.take j) (pyUpper (es.get ⟨j, hj⟩)) + 1 := by
  have h1 : es.take (j + 1) = es.take j ++ [es.get ⟨j, hj⟩] := by
    rw [List.take_succ, List.getElem?_eq_getElem hj]
    rfl
  rw [h1]
  unfold upperCount
  rw [List.map_append, List.count_append]
  simp [List.count_cons]

theorem canonLoop_names_nodup (es : List String)
    (hdf : ∀ e ∈ es, ∀ c ∈ (pyUpper e).data, c.isDigit = false)
    (suf : String → Nat) (i : Nat) (olds : List String) :
    (canonLoop suf i es olds).1.Nodup := by
  apply List.pairwise_iff_get.mpr
  intro fi fj hij heq
  have hlen := canonLoop_length suf i es olds
  have hfi : fi.val < es.length := hlen ▸ fi.isLt
  have hfj : fj.val < es.length := hlen ▸ fj.isLt
  rw [canonLoop_name_get es suf i olds fi.val hfi fi.isLt,
    canonLoop_name_get es suf i olds fj.val hfj fj.isLt] at heq
  have hdata := congrArg String.data heq
  rw [String.data_append, String.data_append] at hdata
  set A := pyUpper (es.get ⟨fi.val, hfi⟩) with hAdef
  set B := pyUpper (es.get ⟨fj.val, hfj⟩) with hBdef
  set k₁ := suf A + upperCount (es.take (fi.val + 1)) A with hk₁
  set k₂ := suf B + upperCount (es.take (fj.val + 1)) B with hk₂
  have hsplit := split_nondigit A.data hdata
    (hdf _ (List.get_mem es _ _) )
    (hdf _ (List.get_mem es _ _))
    (by rw [repr_data_eq_natDigits]; exact natDigits_all_digit k₁)
    (by rw [repr_data_eq_natDigits]; exact natDigits_all_digit k₂)
    (by rw [repr_data_eq_natDigits]; exact natDigits_ne_nil k₁)
    (by rw [repr_data_eq_natDigits]; exact natDigits_ne_nil k₂)
  have hAB : A = B := String.ext hsplit.1
  have hkk : k₁ = k₂ := repr_inj (String.ext hsplit.2)
  have hlt : fi.val < fj.val := hij
  have hmono : upperCount (es.take (fi.val + 1)) A ≤
      upperCount (es.take fj.val) A := upperCount_take_mono es A hlt
  have hstep : upperCount (es.take (fj.val + 1)) B =
      upperCount (es.take fj.val) B + 1 :=
    upperCount_take_succ_self es fj.val hfj
  rw [hk₁, hk₂, hAB] at hkk
  rw [hAB] at hmono
  omega


/-- The 12-atom molecule whose first element symbol is the digit-containing
string "C1": canonicalization names its first atom "C11", which collides
with the name of the 11th carbon. -/
def cexMolC2 : Molecule :=
  { name := List.replicate 12 "X"
    element := "C1" :: List.replicate 11 "C"
    segid := List.replicate 12 "S"
    resname := List.replicate 12 "R"
    atomtype := List.replicate 12 ""
    charge := List.replicate 12 0
    masses := List.replicate 12 0
    impropers := [] }

/-- C2, counterexample: the claim asserts that the canonicalized names are
unique across the whole molecule for every molecule; on a molecule whose
element symbols may contain digits this fails (element "C1" gives the name
"C11", so does the 11th "C" atom). -/
theorem claim_C2_cex : ¬ (_canonicalizeAtomNames cexMolC2).1.name.Nodup := by
  with_unfolding_all decide

/-- C2 (amended): the Canonicalizer returns a new molecule (a pure copy;
the input value is untouched) with every segment id set to "L", every
residue name set to "MOL", all other fields preserved, and the `j`-th
atom renamed to the upper-cased element symbol followed by the 1-based
ordinal of that atom among the atoms with the same upper-cased element
symbol, in the molecule's existing order.  The resulting names are unique
across the whole molecule provided that no upper-cased element symbol
contains a decimal-digit character (in particular for all real chemical
element symbols); without that proviso uniqueness can fail
(`claim_C2_cex`). -/
theorem claim_C2 (mol : Molecule) :
    ((_canonicalizeAtomNames mol).1.segid =
        List.replicate mol.segid.length "L" ∧
      (_canonicalizeAtomNames mol).1.resname =
        List.replicate mol.resname.length "MOL" ∧
      (_canonicalizeAtomNames mol).1.element = mol.element ∧
      (_canonicalizeAtomNames mol).1.charge = mol.charge ∧
      (_canonicalizeAtomNames mol).1.atomtype = mol.atomtype ∧
      (_canonicalizeAtomNames mol).1.masses = mol.masses ∧
      (_canonicalizeAtomNames mol).1.impropers = mol.impropers ∧
      (_canonicalizeAtomNames mol).1.name.length = mol.element.length ∧
      ∀ j (hj : j < mol.element.length)
        (hj2 : j < (_canonicalizeAtomNames mol).1.name.length),
        (_canonicalizeAtomNames mol).1.name.get ⟨j, hj2⟩ =
          pyUpper (mol.element.get ⟨j, hj⟩) ++
            Nat.repr (upperCount (mol.element.take (j + 1))
              (pyUpper (mol.element.get ⟨j, hj⟩)))) ∧
    ((∀ e ∈ mol.element, ∀ c ∈ (pyUpper e).data, c.isDigit = false) →
      (_canonicalizeAtomNames mol).1.name.Nodup) := by
  refine ⟨⟨rfl, rfl, rfl, rfl, rfl, rfl, rfl,
    canonLoop_length _ 0 mol.element mol.name, ?_⟩, ?_⟩
  · intro j hj hj2
    have h := canonLoop_name_get mol.element (fun _ => 0) 0 mol.name j hj hj2
    rw [Nat.zero_add] at h
    exact h
  · intro hdf
    exact canonLoop_names_nodup mol.element hdf _ 0 mol.name

/-- A 9-atom ethanolamine-like molecule (spec scenario, section 8). -/
def sMol : Molecule :=
  { name := ["Ca", "Cb", "Na", "Hb", "Hc", "Hd", "He", "Hf", "Oa"]
    element := ["C", "C", "N", "H", "H", "H", "H", "H", "O"]
    segid := List.replicate 9 "S"
    resname := List.replicate 9 "ETA"
    atomtype := List.replicate 9 ""
    charge := List.replicate 9 (0 : ℚ)
    masses := List.replicate 9 (0 : ℚ)
    impropers := [] }

/-- Witness for `claim_C2`: the inner digit-free hypothesis holds for the
concrete ethanolamine-like molecule and the theorem applies to it. -/
theorem claim_C2_witness :
    (∀ e ∈ sMol.element, ∀ c ∈ (pyUpper e).data, c.isDigit = false) ∧
      (_canonicalizeAtomNames sMol).1.name.Nodup :=
  ⟨by decide, (claim_C2 sMol).2 (by decide)⟩


/-- A sample backend tuple consistent with `sMol` (used by witnesses). -/
def sRtf : RtfData :=
  { names := ["C1", "C2", "N1", "H1", "H2", "H3", "H4", "H5", "O1"]
    elements := ["C", "C", "N", "H", "H", "H", "H", "H", "O"]
    atomtypes := List.replicate 9 "c3"
    charges := List.replicate 9 (0 : ℚ)
    masses := List.replicate 9 (12 : ℚ)
    impropers := [] }

/-- A sample environment: all three subprocesses succeed and every reader
returns `sRtf` (used by witnesses). -/
def sEnv : Env :=
  { antechamberRet := 0
    parmchk2Ret := 0
    matchTyperRet := 0
    amberPrm := ⟨1⟩
    cgenffPrm := ⟨2⟩
    directPrm := ⟨3⟩
    prepiNames := sRtf.names
    prepiAtomtypes := sRtf.atomtypes
    prepiCharges := sRtf.charges
    prepiImpropers := sRtf.impropers
    frcmodMasses := sRtf.masses
    frcmodElements := sRtf.elements
    cgenffRtf := sRtf
    directRtf := sRtf
    autoTmpName := "autotmp" }

theorem elemCheckAndBuild_snd (mol : Molecule) (ac : Option String)
    (prm : ParamSet) (d : RtfData) (tr : Trace) :
    (elemCheckAndBuild mol ac prm d tr).2 = tr := by
  unfold elemCheckAndBuild
  split <;> rfl

theorem elemCheckAndBuild_cases (mol : Molecule) (ac : Option String)
    (prm : ParamSet) (d : RtfData) (tr : Trace) :
    (mol.element = d.elements ∧
        elemCheckAndBuild mol ac prm d tr =
          (.ok (prm, applyTypes mol ac d), tr)) ∨
      (mol.element ≠ d.elements ∧
        elemCheckAndBuild mol ac prm d tr = (.error .assertionError, tr)) := by
  unfold elemCheckAndBuild
  by_cases h : mol.element = d.elements
  · exact Or.inl ⟨h, by rw [if_pos h]⟩
  · exact Or.inr ⟨h, by rw [if_neg h]⟩

/-- C7: with the CGenFF-family method and a (truthy) charge-assignment
scheme, `fftype` raises ValueError("acCharges") with an empty trace: no
external process has been invoked and no workspace file has been
created. -/
theorem claim_C7 (env : Env) (mol : Molecule) (rtfFile prmFile : Option String)
    (acCharges : Option String) (c : String) (tmpDir : Option String)
    (netcharge : Option Int) (hc : acCharges = some c) (hne : c ≠ "") :
    fftype env mol rtfFile prmFile "CGenFF_2b6" acCharges tmpDir netcharge =
      (.error (.valueError "acCharges"), emptyTrace) := by
  subst hc
  unfold fftype
  rw [if_neg (by decide), if_pos ⟨rfl, by simp [truthy, hne]⟩]

/-- Witness for `claim_C7` at a concrete call. -/
theorem claim_C7_witness :
    (some "gas" = some "gas" ∧ "gas" ≠ "") ∧
      fftype sEnv sMol none none "CGenFF_2b6" (some "gas") none (some 0) =
        (.error (.valueError "acCharges"), emptyTrace) :=
  ⟨⟨rfl, by decide⟩,
    claim_C7 sEnv sMol none none (some "gas") "gas" none (some 0) rfl
      (by decide)⟩

/-- C8: any method outside the closed set
`fftypemethods = ["CGenFF_2b6", "GAFF", "GAFF2"]` (the spec writes the
CGenFF family member as "CGenFF"; the source literal is "CGenFF_2b6")
makes `fftype` raise a ValueError naming the offending value and the
allowed set, before any other effect: the trace is empty. -/
theorem claim_C8 (env : Env) (mol : Molecule) (rtfFile prmFile : Option String)
    (method : String) (acCharges tmpDir : Option String)
    (netcharge : Option Int) (h : method ∉ fftypemethods) :
    fftype env mol rtfFile prmFile method acCharges tmpDir netcharge =
      (.error (.valueError ("Invalid method " ++ method ++
        ". Available methods " ++ String.intercalate "," fftypemethods)),
        emptyTrace) := by
  unfold fftype
  rw [if_pos h]

/-- Witness for `claim_C8` at the concrete method "AMBER". -/
theorem claim_C8_witness :
    "AMBER" ∉ fftypemethods ∧
      fftype sEnv sMol none none "AMBER" none none (some 0) =
        (.error (.valueError ("Invalid method " ++ "AMBER" ++
          ". Available methods " ++ String.intercalate "," fftypemethods)),
          emptyTrace) :=
  ⟨by decide,
    claim_C8 sEnv sMol none none "AMBER" none none (some 0) (by decide)⟩


theorem elemCheckAndBuild_fst_no_valueError (mol : Molecule)
    (ac : Option String) (prm : ParamSet) (d : RtfData) (tr : Trace)
    (msg : String) :
    (elemCheckAndBuild mol ac prm d tr).1 ≠ .error (.valueError msg) := by
  unfold elemCheckAndBuild
  split <;> simp

set_option maxHeartbeats 1000000 in
/-- C10: option presence is decided by truthiness, not by is-None.  With
the CGenFF-family method and `acCharges = ""` the incompatibility
ValueError is not raised; and an empty-string `rtfFile` or `prmFile` is
treated exactly as an absent one, so such a call behaves identically to
the call with that argument `None` — in particular the external-backend
path with canonicalization is taken instead of the direct-file path. -/
theorem claim_C10 (env : Env) (mol : Molecule) :
    (∀ (rtfFile prmFile tmpDir : Option String) (netcharge : Option Int),
      (fftype env mol rtfFile prmFile "CGenFF_2b6" (some "") tmpDir
          netcharge).1 ≠ .error (.valueError "acCharges")) ∧
    (∀ (prmFile : Option String) (method : String)
        (acCharges tmpDir : Option String) (netcharge : Option Int),
      fftype env mol (some "") prmFile method acCharges tmpDir netcharge =
        fftype env mol none prmFile method acCharges tmpDir netcharge) ∧
    (∀ (rtfFile : Option String) (method : String)
        (acCharges tmpDir : Option String) (netcharge : Option Int),
      fftype env mol rtfFile (some "") method acCharges tmpDir netcharge =
        fftype env mol rtfFile none method acCharges tmpDir netcharge) ∧
    (∀ (tmpDir : Option String) (netcharge : Option Int),
      LogMsg.assigningTypes "GAFF2" ∈
        (fftype env mol (some "") (some "x") "GAFF2" none tmpDir
          netcharge).2.logs) := by
  refine ⟨?_, ?_, ?_, ?_⟩
  · intro rtfFile prmFile tmpDir netcharge
    unfold fftype elemCheckAndBuild
    rw [if_neg (by decide), if_neg (by simp [truthy])]
    generalize pyRound mol.charge.sum = v
    cases netcharge <;> (try simp only []) <;> split_ifs <;> simp_all
  · intro prmFile method acCharges tmpDir netcharge
    unfold fftype
    simp [truthy]
  · intro rtfFile method acCharges tmpDir netcharge
    unfold fftype
    simp [truthy]
  · intro tmpDir netcharge
    unfold fftype elemCheckAndBuild
    rw [if_neg (by decide), if_neg (by simp [truthy]),
      if_neg (by simp [truthy]), if_pos (by simp)]
    generalize pyRound mol.charge.sum = v
    cases netcharge <;> (try simp only []) <;> split_ifs <;> simp_all

/-- Witness for `claim_C10` at a concrete call. -/
theorem claim_C10_witness :
    (fftype sEnv sMol none none "CGenFF_2b6" (some "") none (some 0)).1 ≠
        .error (.valueError "acCharges") ∧
      fftype sEnv sMol (some "") (some "x") "GAFF2" none none (some 0) =
        fftype sEnv sMol none (some "x") "GAFF2" none none (some 0) :=
  ⟨(claim_C10 sEnv sMol).1 none none none (some 0),
    (claim_C10 sEnv sMol).2.1 (some "x") "GAFF2" none none (some 0)⟩



/-- C5, counterexample: on the direct-file path the claim asserts that the
raw molecule's names are validated against the parsed ones; in the code
only the elements are checked (line 180; the name assertion of line 178
is inside the non-direct branch), so a call whose parsed names disagree
with the molecule's names while the elements agree succeeds. -/
theorem claim_C5_cex :
    sMol.name ≠ sEnv.directRtf.names ∧
      (fftype sEnv sMol (some "top.rtf") (some "par.prm") "GAFF2" none none
          (some 0)).1 =
        .ok (sEnv.directPrm, applyTypes sMol none sEnv.directRtf) :=
  ⟨by decide, by with_unfolding_all decide⟩

/-- C5 (amended): when both `rtfFile` and `prmFile` are supplied (truthy),
`fftype` short-circuits to the direct-file strategy regardless of method:
canonicalization and all external processes are skipped (no subprocess,
no workspace directory, no file written, no rename log), the parameter
set and the parsed tuple are read from those files, and only the raw
input molecule's elements are validated against the parsed ones — the
names are not checked on this path. -/
theorem claim_C5 (env : Env) (mol : Molecule)
    (rtfFile prmFile : Option String) (method : String)
    (acCharges tmpDir : Option String) (netcharge : Option Int)
    (hm : method ∈ fftypemethods)
    (hc : ¬ (method = "CGenFF_2b6" ∧ truthy acCharges = true))
    (hr : truthy rtfFile = true) (hp : truthy prmFile = true) :
    fftype env mol rtfFile prmFile method acCharges tmpDir netcharge =
        elemCheckAndBuild mol acCharges env.directPrm env.directRtf
          ⟨(match netcharge with
              | none => [LogMsg.usingMolCharges]
              | some _ => []) ++
            [.readingFF (rtfFile.getD "") (prmFile.getD "")],
            [], [], [], []⟩ ∧
      (fftype env mol rtfFile prmFile method acCharges tmpDir
          netcharge).2.procs = [] ∧
      (fftype env mol rtfFile prmFile method acCharges tmpDir
          netcharge).2.tmpCreated = [] ∧
      (fftype env mol rtfFile prmFile method acCharges tmpDir
          netcharge).2.written = [] ∧
      (mol.element = env.directRtf.elements →
        (fftype env mol rtfFile prmFile method acCharges tmpDir
            netcharge).1 =
          .ok (env.directPrm, applyTypes mol acCharges env.directRtf)) ∧
      (mol.element ≠ env.directRtf.elements →
        (fftype env mol rtfFile prmFile method acCharges tmpDir
            netcharge).1 = .error .assertionError) := by
  have heq : fftype env mol rtfFile prmFile method acCharges tmpDir netcharge =
      elemCheckAndBuild mol acCharges env.directPrm env.directRtf
        ⟨(match netcharge with
            | none => [LogMsg.usingMolCharges]
            | some _ => []) ++
          [.readingFF (rtfFile.getD "") (prmFile.getD "")],
          [], [], [], []⟩ := by
    unfold fftype
    rw [if_neg (not_not_intro hm), if_neg hc, if_pos ⟨hr, hp⟩]
  refine ⟨heq, ?_, ?_, ?_, ?_, ?_⟩ <;> rw [heq]
  · rw [elemCheckAndBuild_snd]
  · rw [elemCheckAndBuild_snd]
  · rw [elemCheckAndBuild_snd]
  · intro h
    unfold elemCheckAndBuild
    rw [if_pos h]
  · intro h
    unfold elemCheckAndBuild
    rw [if_neg h]

/-- Witness for `claim_C5` at a concrete call. -/
theorem claim_C5_witness :
    ("GAFF2" ∈ fftypemethods ∧
        ¬ ("GAFF2" = "CGenFF_2b6" ∧ truthy (some "q") = true) ∧
        truthy (some "top.rtf") = true ∧ truthy (some "par.prm") = true) ∧
      (fftype sEnv sMol (some "top.rtf") (some "par.prm") "GAFF2" (some "q")
          none (some 0)).2.procs = [] :=
  ⟨⟨by decide, by decide, by decide, by decide⟩,
    (claim_C5 sEnv sMol (some "top.rtf") (some "par.prm") "GAFF2" (some "q")
        none (some 0) (by decide) (by decide) (by decide) (by decide)).2.1⟩



/-- The subprocesses that the configuration actually runs all exited with
code 0 (vacuously true on the direct-file path, which runs none). -/
def procsOk (env : Env) (rtfFile prmFile : Option String)
    (method : String) : Prop :=
  if truthy rtfFile = true ∧ truthy prmFile = true then True
  else if method = "GAFF" ∨ method = "GAFF2" then
    env.antechamberRet = 0 ∧ env.parmchk2Ret = 0
  else env.matchTyperRet = 0

set_option maxHeartbeats 2000000 in
/-- C4: on every path, if the elements produced by the backend reader
differ from the input molecule's element array, `fftype` fails with the
fatal assertion (the model of the ConsistencyError); and every successful
call returns a molecule whose element array equals the input's (and equals
the parsed elements). -/
theorem claim_C4 (env : Env) (mol : Molecule)
    (rtfFile prmFile : Option String) (method : String)
    (acCharges tmpDir : Option String) (netcharge : Option Int)
    (hm : method ∈ fftypemethods)
    (hc : ¬ (method = "CGenFF_2b6" ∧ truthy acCharges = true)) :
    (∀ p m2 tr,
      fftype env mol rtfFile prmFile method acCharges tmpDir netcharge =
          (.ok (p, m2), tr) →
        m2.element = mol.element ∧
          mol.element = (backendData env rtfFile prmFile method).2.elements) ∧
    (procsOk env rtfFile prmFile method →
      mol.element ≠ (backendData env rtfFile prmFile method).2.elements →
      (fftype env mol rtfFile prmFile method acCharges tmpDir
          netcharge).1 = .error .assertionError) := by
  have hmem : method = "CGenFF_2b6" ∨ method = "GAFF" ∨ method = "GAFF2" := by
    simpa [fftypemethods] using hm
  unfold fftype elemCheckAndBuild backendData procsOk applyTypes
  rw [if_neg (not_not_intro hm), if_neg hc]
  generalize pyRound mol.charge.sum = v
  rcases hmem with rfl | rfl | rfl <;>
    cases netcharge <;> (try simp only []) <;> split_ifs <;> simp_all


/-- An environment whose parsed elements disagree with `sMol`'s elements
(used by the C4 witness). -/
def mEnv : Env :=
  { sEnv with frcmodElements := List.replicate 9 "X" }

/-- Witness for `claim_C4` at a concrete call whose parsed elements
mismatch: the call aborts with the assertion failure. -/
theorem claim_C4_witness :
    (("GAFF2" ∈ fftypemethods ∧
        ¬ ("GAFF2" = "CGenFF_2b6" ∧ truthy none = true)) ∧
      procsOk mEnv none none "GAFF2" ∧
      sMol.element ≠ (backendData mEnv none none "GAFF2").2.elements) ∧
      (fftype mEnv sMol none none "GAFF2" none none (some 0)).1 =
        .error .assertionError :=
  ⟨⟨⟨by decide, by decide⟩, by simp [procsOk, truthy, mEnv, sEnv],
      by decide⟩,
    (claim_C4 mEnv sMol none none "GAFF2" none none (some 0) (by decide)
        (by decide)).2 (by simp [procsOk, truthy, mEnv, sEnv]) (by decide)⟩



set_option maxHeartbeats 2000000 in
/-- C3: on every non-direct-file call (canonicalization used) whose
external processes succeed, if the names produced by the backend reader
are not element-for-element equal to the canonicalized molecule's name
array, `fftype` fails with the fatal assertion (the model of the
ConsistencyError) and never returns a result. -/
theorem claim_C3 (env : Env) (mol : Molecule)
    (rtfFile prmFile : Option String) (method : String)
    (acCharges tmpDir : Option String) (netcharge : Option Int)
    (hm : method ∈ fftypemethods)
    (hc : ¬ (method = "CGenFF_2b6" ∧ truthy acCharges = true))
    (hd : ¬ (truthy rtfFile = true ∧ truthy prmFile = true))
    (hp : procsOk env rtfFile prmFile method)
    (hn : (backendData env rtfFile prmFile method).2.names ≠
      (_canonicalizeAtomNames mol).1.name) :
    (fftype env mol rtfFile prmFile method acCharges tmpDir netcharge).1 =
      .error .assertionError := by
  have hmem : method = "CGenFF_2b6" ∨ method = "GAFF" ∨ method = "GAFF2" := by
    simpa [fftypemethods] using hm
  unfold backendData at hn
  rw [if_neg hd] at hn
  unfold procsOk at hp
  unfold fftype elemCheckAndBuild
  rw [if_neg (not_not_intro hm), if_neg hc]
  generalize pyRound mol.charge.sum = v
  rcases hmem with rfl | rfl | rfl <;>
    cases netcharge <;> (try simp only []) <;> split_ifs <;> simp_all

/-- An environment whose parsed names disagree with the canonicalized
names of `sMol` (used by the C3 witness). -/
def nEnv : Env :=
  { sEnv with prepiNames := List.replicate 9 "Q" }

/-- Witness for `claim_C3` at a concrete call whose parsed names
mismatch: the call aborts with the assertion failure. -/
theorem claim_C3_witness :
    ("GAFF2" ∈ fftypemethods ∧
        ¬ ("GAFF2" = "CGenFF_2b6" ∧ truthy none = true) ∧
        ¬ (truthy none = true ∧ truthy none = true) ∧
        procsOk nEnv none none "GAFF2" ∧
        (backendData nEnv none none "GAFF2").2.names ≠
          (_canonicalizeAtomNames sMol).1.name) ∧
      (fftype nEnv sMol none none "GAFF2" none none (some 0)).1 =
        .error .assertionError :=
  ⟨⟨by decide, by decide, by decide,
      by simp [procsOk, truthy, nEnv, sEnv],
      by with_unfolding_all decide⟩,
    claim_C3 nEnv sMol none none "GAFF2" none none (some 0) (by decide)
      (by decide) (by decide) (by simp [procsOk, truthy, nEnv, sEnv])
      (by with_unfolding_all decide)⟩



set_option maxHeartbeats 2000000 in
/-- C1: every successful call returns a copy of the input molecule
(`name`, `element`, `segid`, `resname` as the caller passed them — the
embedding is pure, so the caller's value is untouched by construction)
whose `atomtype`, `masses` and `impropers` are the backend-produced
values, and whose `charge` is the backend-produced charges exactly when a
charge-assignment scheme was requested (`acCharges is not None`),
otherwise the caller's original charges; the returned parameter set is
the backend-produced one. -/
theorem claim_C1 (env : Env) (mol : Molecule)
    (rtfFile prmFile : Option String) (method : String)
    (acCharges tmpDir : Option String) (netcharge : Option Int)
    (p : ParamSet) (m2 : Molecule) (tr : Trace)
    (hok : fftype env mol rtfFile prmFile method acCharges tmpDir netcharge =
      (.ok (p, m2), tr)) :
    m2.name = mol.name ∧ m2.element = mol.element ∧ m2.segid = mol.segid ∧
      m2.resname = mol.resname ∧
      m2.atomtype = (backendData env rtfFile prmFile method).2.atomtypes ∧
      m2.masses = (backendData env rtfFile prmFile method).2.masses ∧
      m2.impropers = (backendData env rtfFile prmFile method).2.impropers ∧
      m2.charge = (if acCharges.isSome then
        (backendData env rtfFile prmFile method).2.charges
      else mol.charge) ∧
      p = (backendData env rtfFile prmFile method).1 := by
  replace hok := hok.symm
  unfold fftype elemCheckAndBuild applyTypes at hok
  unfold backendData
  revert hok
  generalize pyRound mol.charge.sum = v
  intro hok
  cases netcharge <;> (try simp only [] at hok) <;> split_ifs at hok ⊢ <;>
    simp_all

/-- Witness for `claim_C1` at a concrete successful call. -/
theorem claim_C1_witness :
    fftype sEnv sMol none none "GAFF2" none none (some 0) =
        (.ok (sEnv.amberPrm, applyTypes sMol none (gaffData sEnv)),
          (fftype sEnv sMol none none "GAFF2" none none (some 0)).2) ∧
      (applyTypes sMol none (gaffData sEnv)).element = sMol.element :=
  ⟨by with_unfolding_all decide,
    (claim_C1 sEnv sMol none none "GAFF2" none none (some 0) sEnv.amberPrm
        (applyTypes sMol none (gaffData sEnv))
        (fftype sEnv sMol none none "GAFF2" none none (some 0)).2
        (by with_unfolding_all decide)).2.1⟩



set_option maxHeartbeats 2000000 in
/-- C6: when `netcharge` is absent, the warning that molecule-supplied
charges are being trusted is logged, and every external process the call
invokes receives the derived net charge `pyRound (sum mol.charge)`
(Python `int(round(np.sum(mol.charge)))`) in its argv. -/
theorem claim_C6 (env : Env) (mol : Molecule)
    (rtfFile prmFile : Option String) (method : String)
    (acCharges tmpDir : Option String)
    (hm : method ∈ fftypemethods)
    (hc : ¬ (method = "CGenFF_2b6" ∧ truthy acCharges = true)) :
    LogMsg.usingMolCharges ∈
        (fftype env mol rtfFile prmFile method acCharges tmpDir
          none).2.logs ∧
      ∀ args ∈ (fftype env mol rtfFile prmFile method acCharges tmpDir
          none).2.procs,
        args = antechamberCmd (pyLower method) (pyRound mol.charge.sum)
            acCharges ∨
          args = parmchk2Cmd (pyLower method) ∨
          args = matchTyperCmd (pyRound mol.charge.sum) := by
  have hmem : method = "CGenFF_2b6" ∨ method = "GAFF" ∨ method = "GAFF2" := by
    simpa [fftypemethods] using hm
  unfold fftype elemCheckAndBuild
  rw [if_neg (not_not_intro hm), if_neg hc]
  rcases hmem with rfl | rfl | rfl <;> (try simp only []) <;> split_ifs <;>
    simp_all

/-- Witness for `claim_C6` at a concrete call. -/
theorem claim_C6_witness :
    ("GAFF2" ∈ fftypemethods ∧
        ¬ ("GAFF2" = "CGenFF_2b6" ∧ truthy none = true)) ∧
      LogMsg.usingMolCharges ∈
        (fftype sEnv sMol none none "GAFF2" none none none).2.logs :=
  ⟨⟨by decide, by decide⟩,
    (claim_C6 sEnv sMol none none "GAFF2" none none (by decide)
        (by decide)).1⟩

set_option maxHeartbeats 2000000 in
theorem fftype_trace_shape (env : Env) (mol : Molecule)
    (rtfFile prmFile : Option String) (method : String)
    (acCharges tmpDir : Option String) (netcharge : Option Int)
    (hm : method ∈ fftypemethods)
    (hc : ¬ (method = "CGenFF_2b6" ∧ truthy acCharges = true))
    (hd : ¬ (truthy rtfFile = true ∧ truthy prmFile = true)) :
    ∃ lg pr fn,
      (fftype env mol rtfFile prmFile method acCharges tmpDir netcharge).2 =
        ⟨lg, pr, [(tmpDir.getD env.autoTmpName, fn)],
          [env.autoTmpName], [env.autoTmpName]⟩ := by
  have hmem : method = "CGenFF_2b6" ∨ method = "GAFF" ∨ method = "GAFF2" := by
    simpa [fftypemethods] using hm
  unfold fftype elemCheckAndBuild
  rw [if_neg (not_not_intro hm), if_neg hc]
  try simp only []
  rcases hmem with rfl | rfl | rfl
  · rw [if_neg (by decide : ¬ ("CGenFF_2b6" = "GAFF" ∨ "CGenFF_2b6" = "GAFF2")),
      if_pos rfl]
    split_ifs <;>
      first
        | exact absurd ‹truthy rtfFile = true ∧ truthy prmFile = true› hd
        | exact ⟨_, _, _, rfl⟩
  · rw [if_pos (by decide : ("GAFF" = "GAFF" ∨ "GAFF" = "GAFF2"))]
    split_ifs <;>
      first
        | exact absurd ‹truthy rtfFile = true ∧ truthy prmFile = true› hd
        | exact ⟨_, _, _, rfl⟩
  · rw [if_pos (by decide : ("GAFF2" = "GAFF" ∨ "GAFF2" = "GAFF2"))]
    split_ifs <;>
      first
        | exact absurd ‹truthy rtfFile = true ∧ truthy prmFile = true› hd
        | exact ⟨_, _, _, rfl⟩

set_option maxHeartbeats 1000000 in
/-- C9: on every non-direct-file call that passes validation, the
automatic temporary directory is created and is deleted on every exit
path (the conclusion holds whatever the subprocess return codes and
parser outputs are); when the caller supplied a persistent `tmpDir`, the
backend files are written into the caller's directory and that directory
is never deleted; when no `tmpDir` was supplied the backend files go to
the automatic directory. -/
theorem claim_C9 (env : Env) (mol : Molecule)
    (rtfFile prmFile : Option String) (method : String)
    (acCharges tmpDir : Option String) (netcharge : Option Int)
    (hm : method ∈ fftypemethods)
    (hc : ¬ (method = "CGenFF_2b6" ∧ truthy acCharges = true))
    (hd : ¬ (truthy rtfFile = true ∧ truthy prmFile = true)) :
    (fftype env mol rtfFile prmFile method acCharges tmpDir
        netcharge).2.tmpCreated = [env.autoTmpName] ∧
      (fftype env mol rtfFile prmFile method acCharges tmpDir
        netcharge).2.tmpDeleted = [env.autoTmpName] ∧
      (∀ d, tmpDir = some d →
        (∀ f ∈ (fftype env mol rtfFile prmFile method acCharges tmpDir
            netcharge).2.written, f.1 = d) ∧
          (d ≠ env.autoTmpName →
            d ∉ (fftype env mol rtfFile prmFile method acCharges tmpDir
              netcharge).2.tmpDeleted)) ∧
      (tmpDir = none →
        ∀ f ∈ (fftype env mol rtfFile prmFile method acCharges tmpDir
            netcharge).2.written, f.1 = env.autoTmpName) := by
  obtain ⟨lg, pr, fn, htr⟩ := fftype_trace_shape env mol rtfFile prmFile
    method acCharges tmpDir netcharge hm hc hd
  rw [htr]
  refine ⟨rfl, rfl, ?_, ?_⟩
  · intro d hda
    subst hda
    exact ⟨by intro f hf; simp at hf; rw [hf],
      by intro hne; simp [hne]⟩
  · intro hda
    subst hda
    intro f hf
    simp at hf
    rw [hf]

/-- Witness for `claim_C9` at a concrete call with a caller-supplied
persistent directory. -/
theorem claim_C9_witness :
    ("GAFF2" ∈ fftypemethods ∧
        ¬ ("GAFF2" = "CGenFF_2b6" ∧ truthy none = true) ∧
        ¬ (truthy none = true ∧ truthy none = true)) ∧
      (fftype sEnv sMol none none "GAFF2" none (some "keep")
        (some 0)).2.tmpCreated = [sEnv.autoTmpName] :=
  ⟨⟨by decide, by decide, by decide⟩,
    (claim_C9 sEnv sMol none none "GAFF2" none (some "keep") (some 0)
        (by decide) (by decide) (by decide)).1⟩


end Htmd
